import Mathlib

/-!
Verification development for the OSVR tracker parameter-finder tool
(src/plugins/unifiedvideoinertialtracker/TrackerParameterFinder.cpp).

Real scalars (C++ double/float) are modelled as rationals: every claim settled
here is about routing of values, control flow, or exact algebraic identities,
none about rounding. External collaborators (CSV tokenization from CSVTools.h,
the one-euro filters from EigenFilters.h, the newuoa optimizer, the tracking
system factory) are abstracted as explicit parameters or modelled from the
spec, as noted on each definition.
-/

set_option autoImplicit false

namespace VbTracker

/-- Translation of osvr::util::time::TimeValue: a two-part timestamp holding
whole seconds and microseconds, both signed integers. -/
structure TimeValue where
  seconds : Int
  microseconds : Int
deriving DecidableEq

/-- Value of a TimeValue in seconds, as an exact rational. -/
def TimeValue.toSeconds (t : TimeValue) : ℚ :=
  t.seconds + t.microseconds / 1000000

/-- Modelled from the spec: osvrTimeValueDurationSeconds (osvr/Util/TimeValue.h,
not among the sources) computes the elapsed time in seconds from `b` to `a`,
used by the RANSAC strategy as the elapsed time since the previous successful
row. -/
def osvrTimeValueDurationSeconds (a b : TimeValue) : ℚ :=
  a.toSeconds - b.toSeconds

/-- Translation of Eigen::Vector3d as used for the reference translation. -/
structure Vec3 where
  x : ℚ
  y : ℚ
  z : ℚ
deriving DecidableEq

/-- Option-valued indexed write `v[i] = val` on a 3-vector: the `none` result
is the out-of-bounds branch (in Eigen, indexing outside 0..2 on a fixed-size
Vector3d violates its bounds assertion and is undefined behavior). -/
def Vec3.set? (v : Vec3) (i : ℕ) (val : ℚ) : Option Vec3 :=
  if i = 0 then some { v with x := val }
  else if i = 1 then some { v with y := val }
  else if i = 2 then some { v with z := val }
  else none

/-- Translation of Eigen::Quaterniond as used for the reference rotation,
components (w, x, y, z). -/
structure Quat where
  w : ℚ
  x : ℚ
  y : ℚ
  z : ℚ
deriving DecidableEq

/-- Translation of LedMeasurement as constructed in LoadRow: an image-space
blob observation (x, y, size). The fixed IMAGE_SIZE constant passed alongside
is omitted, being a shared constant. -/
structure LedMeasurement where
  imageX : ℚ
  imageY : ℚ
  blobSize : ℚ
deriving DecidableEq

/-- Translation of TimestampedMeasurements (TrackerParameterFinder.cpp lines
83-90): timestamp, reference translation, reference rotation, beacon
measurements, and the validity flag `ok` (false until the row parses). -/
structure TimestampedMeasurements where
  tv : TimeValue
  xlate : Vec3
  rot : Quat
  measurements : List LedMeasurement
  ok : Bool
deriving DecidableEq

/-- Abstraction of one delimited CSV field of a data line: `asNum` is the
result of the numeric parse used for translation, rotation and beacon fields
(getFieldAs of double or float), `asInt` the result of the integer parse used
for the two timestamp fields (getField into integer members). `none` means the
parse failed. -/
structure RawField where
  asNum : Option ℚ
  asInt : Option Int
deriving DecidableEq

/-- A field that parses as the number `v` but not as an integer (for example a
decimal literal). -/
def numF (v : ℚ) : RawField := ⟨some v, none⟩

/-- A field holding an integer literal: parses both ways. -/
def intF (n : Int) : RawField := ⟨some (n : ℚ), some n⟩

/-- A field that fails every numeric parse. -/
def badField : RawField := ⟨none, none⟩

/-- State of the LoadRow functor (TrackerParameterFinder.cpp lines 92-182):
the row being filled, the 1-based running field counter `field_`, the pending
beacon triple pieces, and a flag recording that an out-of-bounds branch of a
translation write was taken (in C++ that write is undefined behavior; the
total embedding records it and continues). -/
structure LoadRowState where
  row : TimestampedMeasurements
  field : ℕ
  measurementPieces : List ℚ
  xlateOOB : Bool
deriving DecidableEq

/-- Translation of LoadRow::operator() (lines 104-175), processing one field.
Returns the bool the functor returns (continue iterating or not) and the
updated state. Note the source increments `field_` first and then uses the
incremented, 1-based value directly as the index into the 3-component `xlate`
vector. -/
def loadRowStep (s : LoadRowState) (strField : RawField) : Bool × LoadRowState :=
  let fld := s.field + 1
  let s := { s with field := fld }
  if fld ≤ 3 then
    -- refx/y/z
    match strField.asNum with
    | none => (false, s)
    | some val =>
      match s.row.xlate.set? fld val with
      | some v => (true, { s with row := { s.row with xlate := v } })
      | none => (true, { s with xlateOOB := true })
  else if fld ≤ 7 then
    -- refqw/qx/qy/qz
    match strField.asNum with
    | none => (false, s)
    | some val =>
      let rot := s.row.rot
      let rot :=
        if fld = 4 then { rot with w := val }
        else if fld = 5 then { rot with x := val }
        else if fld = 6 then { rot with y := val }
        else { rot with z := val }
      (true, { s with row := { s.row with rot := rot } })
  else if fld = 8 then
    -- sec
    match strField.asInt with
    | none => (false, s)
    | some v => (true, { s with row := { s.row with tv := { s.row.tv with seconds := v } } })
  else if fld = 9 then
    -- usec; on success the row becomes ok
    match strField.asInt with
    | none => (false, s)
    | some v =>
      (true, { s with row :=
        { s.row with tv := { s.row.tv with microseconds := v }, ok := true } })
  else
    -- looping through x, y, size for every blob
    match strField.asNum with
    | none => (false, s)
    | some val =>
      let pieces := s.measurementPieces ++ [val]
      match pieces with
      | [a, b, c] =>
        -- measurementPieces_.size() == 3: a new LED, then clear
        (true, { s with
          row := { s.row with measurements := s.row.measurements ++ [⟨a, b, c⟩] },
          measurementPieces := [] })
      | _ => (true, { s with measurementPieces := pieces })

/-- Modelled from the spec: csvtools::iterateFields (CSVTools.h is not among
the sources) calls the row functor once per delimited field of the line, in
encounter order; per the spec error policy — any field-level numeric parse
failure invalidates the whole row, which is dropped while parsing continues
with the next line — iteration over the current line stops when the functor
returns false. -/
def iterateFields (s : LoadRowState) : List RawField → LoadRowState
  | [] => s
  | f :: rest =>
    match loadRowStep s f with
    | (true, s2) => iterateFields s2 rest
    | (false, s2) => s2

/-- Initial functor state for a line, wrapping the row object the functor was
constructed with (field counter 0, no pending pieces). -/
def initLoadRowState (row₀ : TimestampedMeasurements) : LoadRowState :=
  { row := row₀, field := 0, measurementPieces := [], xlateOOB := false }

/-- Processing of one whole data line by a fresh LoadRow functor over the
given row object, as done per line in loadData. -/
def loadRow (row₀ : TimestampedMeasurements) (line : List RawField) : LoadRowState :=
  iterateFields (initLoadRowState row₀) line

/-- Row object as freshly allocated per data line in loadData
(`new TimestampedMeasurements`): `ok` is false; in C++ the translation and
rotation members are left uninitialized by the default constructor, modelled
here as zeros (no settled claim depends on these initial values except through
explicitly quantified initial rows). -/
def freshRow : TimestampedMeasurements :=
  { tv := ⟨0, 0⟩, xlate := ⟨0, 0, 0⟩, rot := ⟨0, 0, 0, 0⟩, measurements := [], ok := false }

/-- Translation of loadData (lines 184-223). The file system and
csvtools::getCleanLine are external: a file is `none` when it cannot be
opened, otherwise `some lines` with each line already tokenized into raw
fields (tokenization lives in CSVTools.h, not among the sources); a missing
header is the empty file, an empty header a line with no fields. Each data
line is parsed into a fresh row, and only rows whose `ok` flag was set are
appended to the returned log. -/
def loadData (file : Option (List (List RawField))) : List TimestampedMeasurements :=
  match file with
  | none => []
  | some [] => []
  | some (headerRow :: dataLines) =>
    if headerRow.isEmpty then []
    else
      dataLines.foldl
        (fun ret dataLine =>
          let newRow := loadRow freshRow dataLine
          if newRow.row.ok then ret ++ [newRow.row] else ret)
        []

/-- Modelled from the spec: ConfigParams (ConfigParams.h is not among the
sources) as far as updateConfigFromVec touches it — a 6-slot process-noise
autocorrelation array where slots 0-2 are the translation axes and 3-5 the
rotation axes, plus the beacon process noise and the measurement variance
scale factor. -/
structure ConfigParams where
  processNoiseAutocorrelation : Fin 6 → ℚ
  beaconProcessNoise : ℚ
  measurementVarianceScaleFactor : ℚ

/-- Translation of updateConfigFromVec (lines 68-81): broadcast slot of the
4-vector into the config. The C++ chained assignments write slots 2,1,0 with
paramVec[0] and 5,4,3 with paramVec[1], then copy the two scalars. -/
def updateConfigFromVec (params : ConfigParams) (paramVec : Fin 4 → ℚ) : ConfigParams :=
  -- positional noise
  let pna := Function.update (Function.update (Function.update
      params.processNoiseAutocorrelation 2 (paramVec 0)) 1 (paramVec 0)) 0 (paramVec 0)
  -- rotational noise
  let pna := Function.update (Function.update (Function.update
      pna 5 (paramVec 1)) 4 (paramVec 1)) 3 (paramVec 1)
  { processNoiseAutocorrelation := pna
    beaconProcessNoise := paramVec 2
    measurementVarianceScaleFactor := paramVec 3 }

/-- Translation of the ei_newuoa wrapper (lines 47-61). The underlying newuoa
routine (newuoa.h, an external library) is abstracted as `newuoaImpl`, taking
the objective, the dimension n, npt, the start vector, rhoBeg, rhoEnd, maxfun
and the working-space size, and returning the final objective value together
with the mutated vector. The wrapper unpacks the rho pair and swaps the two
radii when rhoEnd exceeds rhoBeg, then computes the working-space size and
delegates. -/
def ei_newuoa {F : Type} (newuoaImpl : F → ℕ → ℕ → List ℚ → ℚ → ℚ → ℕ → ℕ → ℚ × List ℚ)
    (npt : ℕ) (x : List ℚ) (rho : ℚ × ℚ) (maxfun : ℕ) (f : F) : ℚ × List ℚ :=
  let rhoBeg := rho.1
  let rhoEnd := rho.2
  let p : ℚ × ℚ := if rhoEnd > rhoBeg then (rhoEnd, rhoBeg) else (rhoBeg, rhoEnd)
  let n := x.length
  let workingSpaceNeeded := (npt + 13) * (npt + n) + 3 * n * (n + 3) / 2
  newuoaImpl f n npt x p.1 p.2 maxfun workingSpaceNeeded

/-- Translation of the objective lambda passed to ei_newuoa inside runOptimizer
(lines 241-252): it maps the candidate vector to a config, builds a fresh
tracking system and target handle from it (makeHDKTrackingSystem is external,
abstracted as `buildSystem` into an arbitrary system type), and then — the
error computation being left as a todo in the source — returns 0. -/
def runOptimizerObjective {S : Type} (buildSystem : ConfigParams → S)
    (defaults : ConfigParams) (x : Fin 4 → ℚ) : ℚ :=
  let params := updateConfigFromVec defaults x
  let _system := buildSystem params
  0

/-- Translation of PoseFilter::filter (lines 269-277). The two one-euro
filters are external (osvr/Util/EigenFilters.h): `posStep` and `oriStep`
abstract their filter members over abstract state types, and the state pair
stands for (m_positionFilter, m_orientationFilter). A non-positive dt is
clamped to 1 to avoid division by zero, then both filters are advanced. -/
def PoseFilter.filter {σp σo : Type} (posStep : ℚ → Vec3 → σp → σp)
    (oriStep : ℚ → Quat → σo → σo) (state : σp × σo) (dt : ℚ)
    (position : Vec3) (orientation : Quat) : σp × σo :=
  let dt := if dt ≤ 0 then 1 else dt -- avoid div by 0
  (posStep dt position state.1, oriStep dt orientation state.2)

/-- State of the RansacOneEuro strategy (lines 315-349): its own pose filter
state, the timestamp of the last successful row, the first-observation flag,
and whether the latest row produced a pose. -/
structure RansacOneEuroState (σp σo : Type) where
  ransacPoseFilter : σp × σo
  last : TimeValue
  isFirst : Bool
  gotPose : Bool

/-- Initial RansacOneEuro state: isFirst true, no pose; `last` is
default-initialized in C++ and read only after the first success, modelled as
time zero. -/
def initRansacState {σp σo : Type} (fs : σp × σo) : RansacOneEuroState σp σo :=
  { ransacPoseFilter := fs, last := ⟨0, 0⟩, isFirst := true, gotPose := false }

/-- Translation of RansacOneEuro::operator() (lines 317-338). The external
RANSAC solve (target.uncalibratedRANSACPoseEstimateFromLeds) is abstracted by
its outcome for this row: `some (pos, quat)` on success, `none` on failure.
Returns the updated strategy state paired with the dt fed to the pose filter
(`none` when the row produced no estimate). On success the dt is 1 for the
first observation and otherwise the elapsed seconds since the last successful
row; the filter is advanced and `last` set to the row timestamp. On failure
only `gotPose` is cleared. -/
def ransacOneEuroStep {σp σo : Type} (posStep : ℚ → Vec3 → σp → σp)
    (oriStep : ℚ → Quat → σo → σo) (s : RansacOneEuroState σp σo)
    (ransacResult : Option (Vec3 × Quat)) (row : TimestampedMeasurements) :
    RansacOneEuroState σp σo × Option ℚ :=
  let s := { s with gotPose := false }
  match ransacResult with
  | none => (s, none)
  | some (pos, quat) =>
    let dt : ℚ := if s.isFirst then 1 else osvrTimeValueDurationSeconds row.tv s.last
    ({ ransacPoseFilter := PoseFilter.filter posStep oriStep s.ransacPoseFilter dt pos quat
       last := row.tv
       isFirst := false
       gotPose := true }, some dt)

/-- Run of the RansacOneEuro strategy over a sequence of rows on which the
RANSAC solve fails, in order. -/
def ransacRunFailures {σp σo : Type} (posStep : ℚ → Vec3 → σp → σp)
    (oriStep : ℚ → Quat → σo → σo) (s : RansacOneEuroState σp σo)
    (rows : List TimestampedMeasurements) : RansacOneEuroState σp σo :=
  rows.foldl (fun s row => (ransacOneEuroStep posStep oriStep s none row).1) s

/-- Specification-side grouping of a flat list of numeric trailing fields into
beacon triples in encounter order, dropping a trailing partial triple; stated
from the spec wording for comparison with the LoadRow beacon loop. -/
def groupTriples : List ℚ → List LedMeasurement
  | a :: b :: c :: rest => ⟨a, b, c⟩ :: groupTriples rest
  | _ => []

/-- Specification-side acceptance predicate, stated from the spec wording: a
row is valid only if every required scalar field (3 translation + 4 rotation +
2 time fields) parsed successfully, the time fields with the integer parse. -/
def requiredFieldsParse (line : List RawField) : Bool :=
  match line with
  | f0 :: f1 :: f2 :: f3 :: f4 :: f5 :: f6 :: f7 :: f8 :: _ =>
    f0.asNum.isSome && f1.asNum.isSome && f2.asNum.isSome && f3.asNum.isSome &&
    f4.asNum.isSome && f5.asNum.isSome && f6.asNum.isSome &&
    f7.asInt.isSome && f8.asInt.isSome
  | _ => false

/-- Helper for reasoning about the required-field prefix: whether the fields
of `line`, fed to the functor starting from field counter `i` (for `i < 9`),
carry it through a successful parse of the remaining required fields up to
field 9 (the two timestamp fields with the integer parse, the rest numeric). -/
def requiredFrom : ℕ → List RawField → Bool
  | _, [] => false
  | i, f :: rest =>
    if i + 1 ≤ 7 then f.asNum.isSome && requiredFrom (i + 1) rest
    else if i + 1 = 8 then f.asInt.isSome && requiredFrom (i + 1) rest
    else f.asInt.isSome

/-! ## Theorems -/

/-- Helper: a run of rows on which RANSAC fails changes neither the last
timestamp, nor the first-observation flag, nor the filter state. -/
theorem ransacRunFailures_preserves {σp σo : Type} (posStep : ℚ → Vec3 → σp → σp)
    (oriStep : ℚ → Quat → σo → σo) (rows : List TimestampedMeasurements)
    (s : RansacOneEuroState σp σo) :
    (ransacRunFailures posStep oriStep s rows).last = s.last ∧
    (ransacRunFailures posStep oriStep s rows).isFirst = s.isFirst ∧
    (ransacRunFailures posStep oriStep s rows).ransacPoseFilter = s.ransacPoseFilter := by
  induction rows generalizing s with
  | nil => exact ⟨rfl, rfl, rfl⟩
  | cons r rest ih =>
    have hstep : (ransacOneEuroStep posStep oriStep s none r).1
        = { s with gotPose := false } := rfl
    have h := ih { s with gotPose := false }
    simpa [ransacRunFailures, hstep] using h

/-- C1: divergence evidence for the translation routing. Loading the
well-formed line 1,2,3,4,5,6,7,8,9 into an initial row whose translation is
(100, 200, 300): the row is accepted, the quaternion receives (4,5,6,7) in
(w,x,y,z) order and the timestamp (8,9) as the claim states, but the first
field is written to translation component 1, not component 0 (which keeps its
initial value 100), the third translation field takes the out-of-bounds write
branch, and the resulting translation is not (1,2,3). -/
theorem C1_translation_off_by_one :
    (loadRow { tv := ⟨0, 0⟩, xlate := ⟨100, 200, 300⟩, rot := ⟨0, 0, 0, 0⟩,
               measurements := [], ok := false }
        [numF 1, numF 2, numF 3, numF 4, numF 5, numF 6, numF 7, intF 8, intF 9]).row.ok
        = true ∧
    (loadRow { tv := ⟨0, 0⟩, xlate := ⟨100, 200, 300⟩, rot := ⟨0, 0, 0, 0⟩,
               measurements := [], ok := false }
        [numF 1, numF 2, numF 3, numF 4, numF 5, numF 6, numF 7, intF 8, intF 9]).row.rot
        = ⟨4, 5, 6, 7⟩ ∧
    (loadRow { tv := ⟨0, 0⟩, xlate := ⟨100, 200, 300⟩, rot := ⟨0, 0, 0, 0⟩,
               measurements := [], ok := false }
        [numF 1, numF 2, numF 3, numF 4, numF 5, numF 6, numF 7, intF 8, intF 9]).row.tv
        = ⟨8, 9⟩ ∧
    (loadRow { tv := ⟨0, 0⟩, xlate := ⟨100, 200, 300⟩, rot := ⟨0, 0, 0, 0⟩,
               measurements := [], ok := false }
        [numF 1, numF 2, numF 3, numF 4, numF 5, numF 6, numF 7, intF 8, intF 9]).row.xlate
        = ⟨100, 1, 2⟩ ∧
    (loadRow { tv := ⟨0, 0⟩, xlate := ⟨100, 200, 300⟩, rot := ⟨0, 0, 0, 0⟩,
               measurements := [], ok := false }
        [numF 1, numF 2, numF 3, numF 4, numF 5, numF 6, numF 7, intF 8, intF 9]).row.xlate
        ≠ ⟨1, 2, 3⟩ := by
  decide

/-- C2: the out-of-bounds branch of the translation writes is reachable. On
the line 5,6,7 the third write asks for index 3 of the 3-component vector, the
Option-valued write takes its `none` branch, and the flag recording that
branch is set after processing. -/
theorem C2_oob_branch_reachable :
    Vec3.set? ⟨0, 0, 0⟩ 3 7 = none ∧
    (loadRow freshRow [numF 5, numF 6, numF 7]).xlateOOB = true := by
  decide

/-- C4: mapping a parameter vector (a, b, c, d) to a config yields
process-noise entries 0-2 all equal to a, entries 3-5 all equal to b, the
beacon process noise c and the measurement variance scale d. -/
theorem C4_updateConfigFromVec_broadcast (params : ConfigParams) (v : Fin 4 → ℚ) :
    (updateConfigFromVec params v).processNoiseAutocorrelation 0 = v 0 ∧
    (updateConfigFromVec params v).processNoiseAutocorrelation 1 = v 0 ∧
    (updateConfigFromVec params v).processNoiseAutocorrelation 2 = v 0 ∧
    (updateConfigFromVec params v).processNoiseAutocorrelation 3 = v 1 ∧
    (updateConfigFromVec params v).processNoiseAutocorrelation 4 = v 1 ∧
    (updateConfigFromVec params v).processNoiseAutocorrelation 5 = v 1 ∧
    (updateConfigFromVec params v).beaconProcessNoise = v 2 ∧
    (updateConfigFromVec params v).measurementVarianceScaleFactor = v 3 := by
  refine ⟨?_, ?_, ?_, ?_, ?_, ?_, rfl, rfl⟩ <;>
    simp [updateConfigFromVec, Function.update]

/-- C6: for any inner filter steps and any identical prior state, calling the
pose filter with a non-positive dt (so dt = 0 and dt = -5 included) produces
exactly the state produced by calling it with dt = 1: the non-positive step is
clamped to 1, not rejected. -/
theorem C6_filter_clamps_nonpositive_dt {σp σo : Type}
    (posStep : ℚ → Vec3 → σp → σp) (oriStep : ℚ → Quat → σo → σo)
    (state : σp × σo) (dt : ℚ) (hdt : dt ≤ 0) (p : Vec3) (q : Quat) :
    PoseFilter.filter posStep oriStep state dt p q
      = PoseFilter.filter posStep oriStep state 1 p q := by
  simp [PoseFilter.filter, hdt]

/-- Witness for C6 at dt = -5 with concrete inner filter steps. -/
theorem C6_filter_clamps_nonpositive_dt_witness :
    (-5 : ℚ) ≤ 0 ∧
    PoseFilter.filter (fun dt _ s => s + dt) (fun dt _ s => s * dt)
        ((2 : ℚ), (3 : ℚ)) (-5) ⟨0, 0, 0⟩ ⟨1, 0, 0, 0⟩
      = PoseFilter.filter (fun dt _ s => s + dt) (fun dt _ s => s * dt)
        ((2 : ℚ), (3 : ℚ)) 1 ⟨0, 0, 0⟩ ⟨1, 0, 0, 0⟩ :=
  ⟨by norm_num,
   C6_filter_clamps_nonpositive_dt (fun dt _ s => s + dt) (fun dt _ s => s * dt)
     ((2 : ℚ), (3 : ℚ)) (-5) (by norm_num) ⟨0, 0, 0⟩ ⟨1, 0, 0, 0⟩⟩

/-- C8: for every abstract optimizer, start vector, interpolation-point count,
evaluation budget and objective, the wrapper gives the same result on the
radius pair (a, b) as on the swapped pair (b, a). -/
theorem C8_radius_pair_order_irrelevant {F : Type}
    (newuoaImpl : F → ℕ → ℕ → List ℚ → ℚ → ℚ → ℕ → ℕ → ℚ × List ℚ)
    (npt : ℕ) (x : List ℚ) (a b : ℚ) (maxfun : ℕ) (f : F) :
    ei_newuoa newuoaImpl npt x (a, b) maxfun f
      = ei_newuoa newuoaImpl npt x (b, a) maxfun f := by
  rcases lt_trichotomy a b with h | h | h
  · simp [ei_newuoa, h, h.not_lt]
  · simp [ei_newuoa, h]
  · simp [ei_newuoa, h, h.not_lt]

/-- C9: every evaluation of the objective function handed to the optimizer
returns exactly 0, whatever the candidate vector, the config defaults, and the
external system factory. -/
theorem C9_objective_returns_zero {S : Type} (buildSystem : ConfigParams → S)
    (defaults : ConfigParams) (x : Fin 4 → ℚ) :
    runOptimizerObjective buildSystem defaults x = 0 := rfl

/-- C10: an unopenable file, a file with no lines at all, and a file whose
header line is empty each load as the empty log, so no data line of such a
file reaches the result. -/
theorem C10_empty_log_on_bad_file :
    loadData none = [] ∧ loadData (some []) = [] ∧
    ∀ rest : List (List RawField), loadData (some ([] :: rest)) = [] := by
  refine ⟨rfl, rfl, fun rest => ?_⟩
  simp [loadData]

/-- C5: the dt policy of the RANSAC-plus-filter strategy — (1) the very first
successful row uses dt = 1; (2) on a RANSAC failure the strategy reports no
estimate and leaves its last-timestamp state (and first-observation flag)
unchanged; (3) after a success at row1 followed by any run of failed rows, the
dt fed to the filter at the next success equals that row's timestamp minus
row1's timestamp, not the timestamp of any intervening failed row. -/
theorem C5_ransac_dt_policy {σp σo : Type} (posStep : ℚ → Vec3 → σp → σp)
    (oriStep : ℚ → Quat → σo → σo) :
    (∀ (fs : σp × σo) (pq : Vec3 × Quat) (row : TimestampedMeasurements),
      (ransacOneEuroStep posStep oriStep (initRansacState fs) (some pq) row).2 = some 1) ∧
    (∀ (s : RansacOneEuroState σp σo) (row : TimestampedMeasurements),
      (ransacOneEuroStep posStep oriStep s none row).1.last = s.last ∧
      (ransacOneEuroStep posStep oriStep s none row).1.isFirst = s.isFirst ∧
      (ransacOneEuroStep posStep oriStep s none row).1.gotPose = false ∧
      (ransacOneEuroStep posStep oriStep s none row).2 = none) ∧
    (∀ (s0 : RansacOneEuroState σp σo) (pq1 : Vec3 × Quat)
        (row1 : TimestampedMeasurements) (failedRows : List TimestampedMeasurements)
        (pq2 : Vec3 × Quat) (row2 : TimestampedMeasurements),
      (ransacOneEuroStep posStep oriStep
          (ransacRunFailures posStep oriStep
            (ransacOneEuroStep posStep oriStep s0 (some pq1) row1).1 failedRows)
          (some pq2) row2).2
        = some (osvrTimeValueDurationSeconds row2.tv row1.tv)) := by
  refine ⟨fun fs pq row => ?_, fun s row => ⟨rfl, rfl, rfl, rfl⟩, ?_⟩
  · obtain ⟨pos, quat⟩ := pq
    rfl
  · intro s0 pq1 row1 failedRows pq2 row2
    obtain ⟨pos1, quat1⟩ := pq1
    obtain ⟨pos2, quat2⟩ := pq2
    obtain ⟨hlast, hfirst, -⟩ :=
      ransacRunFailures_preserves posStep oriStep failedRows
        (ransacOneEuroStep posStep oriStep s0 (some (pos1, quat1)) row1).1
    simp only [ransacOneEuroStep] at hlast hfirst ⊢
    simp [hlast, hfirst]

/-- Helper: characterization of one functor step in the beacon region (field
counter at least 9). -/
theorem loadRowStep_beacon (row : TimestampedMeasurements) (fld : ℕ)
    (pieces : List ℚ) (oob : Bool) (f : RawField) (hf : 9 ≤ fld) :
    loadRowStep ⟨row, fld, pieces, oob⟩ f =
      match f.asNum with
      | none => (false, ⟨row, fld + 1, pieces, oob⟩)
      | some val =>
        match pieces ++ [val] with
        | [a, b, c] =>
          (true, ⟨{ row with measurements := row.measurements ++ [⟨a, b, c⟩] },
                  fld + 1, [], oob⟩)
        | _ => (true, ⟨row, fld + 1, pieces ++ [val], oob⟩) := by
  have h1 : ¬ (fld + 1 ≤ 3) := by omega
  have h2 : ¬ (fld + 1 ≤ 7) := by omega
  have h3 : ¬ (fld + 1 = 8) := by omega
  have h4 : ¬ (fld + 1 = 9) := by omega
  simp [loadRowStep, h1, h2, h3, h4]

/-- Helper: once the row is marked ok and the field counter has passed the
required fields, no later field ever clears the ok flag. -/
theorem iterateFields_ok_true (rest : List RawField) :
    ∀ (row : TimestampedMeasurements) (fld : ℕ) (pieces : List ℚ) (oob : Bool),
    row.ok = true → 9 ≤ fld →
    (iterateFields ⟨row, fld, pieces, oob⟩ rest).row.ok = true := by
  induction rest with
  | nil => intro row fld pieces oob hok hf; exact hok
  | cons f rest ih =>
    intro row fld pieces oob hok hf
    rw [iterateFields, loadRowStep_beacon row fld pieces oob f hf]
    cases hn : f.asNum with
    | none => exact hok
    | some val =>
      rcases pieces with _ | ⟨a, _ | ⟨b, _ | ⟨c, _ | ⟨d, more⟩⟩⟩⟩
      · exact ih row (fld + 1) ([] ++ [val]) oob hok (Nat.le_succ_of_le hf)
      · exact ih row (fld + 1) ([a] ++ [val]) oob hok (Nat.le_succ_of_le hf)
      · exact ih { row with measurements := row.measurements ++ [⟨a, b, val⟩] }
          (fld + 1) [] oob hok (Nat.le_succ_of_le hf)
      · exact ih row (fld + 1) ([a, b, c] ++ [val]) oob hok (Nat.le_succ_of_le hf)
      · exact ih row (fld + 1) ((a :: b :: c :: d :: more) ++ [val]) oob hok
          (Nat.le_succ_of_le hf)

/-- Helper: grouping fewer than three pieces yields no triple. -/
theorem groupTriples_eq_nil (l : List ℚ) (h : l.length < 3) : groupTriples l = [] := by
  rcases l with _ | ⟨a, _ | ⟨b, _ | ⟨c, rest⟩⟩⟩
  · rfl
  · rfl
  · rfl
  · simp only [List.length_cons] at h
    omega

/-- Helper: the number of triples is the floor of a third of the length. -/
theorem groupTriples_length : ∀ l : List ℚ, (groupTriples l).length = l.length / 3
  | [] => rfl
  | [_] => by simp [groupTriples]
  | [_, _] => by simp [groupTriples]
  | a :: b :: c :: rest => by
    have ih := groupTriples_length rest
    simp [groupTriples, ih]
    omega

/-- Helper: iterating the functor over all-numeric fields in the beacon region
preserves the ok flag and appends exactly the grouped triples of the numeric
values to the measurements, in encounter order. -/
theorem iterateFields_beacons (vals : List RawField) :
    ∀ (row : TimestampedMeasurements) (fld : ℕ) (pieces : List ℚ) (oob : Bool),
    (∀ f ∈ vals, f.asNum.isSome = true) → 9 ≤ fld → pieces.length < 3 →
    (iterateFields ⟨row, fld, pieces, oob⟩ vals).row.ok = row.ok ∧
    (iterateFields ⟨row, fld, pieces, oob⟩ vals).row.measurements
      = row.measurements ++ groupTriples (pieces ++ vals.map fun f => f.asNum.getD 0) := by
  induction vals with
  | nil =>
    intro row fld pieces oob hall hf hp
    refine ⟨rfl, ?_⟩
    rw [List.map_nil, List.append_nil, groupTriples_eq_nil pieces hp, List.append_nil]
    rfl
  | cons f rest ih =>
    intro row fld pieces oob hall hf hp
    have hsome : f.asNum.isSome = true := hall f (by simp)
    obtain ⟨val, hval⟩ := Option.isSome_iff_exists.mp hsome
    have hrest : ∀ g ∈ rest, g.asNum.isSome = true := fun g hg => hall g (by simp [hg])
    rw [iterateFields, loadRowStep_beacon row fld pieces oob f hf, hval]
    rcases pieces with _ | ⟨a, _ | ⟨b, _ | ⟨c, more⟩⟩⟩
    · obtain ⟨ihok, ihmeas⟩ :=
        ih row (fld + 1) ([] ++ [val]) oob hrest (Nat.le_succ_of_le hf) (by simp)
      exact ⟨ihok, ihmeas.trans (by simp [hval])⟩
    · obtain ⟨ihok, ihmeas⟩ :=
        ih row (fld + 1) ([a] ++ [val]) oob hrest (Nat.le_succ_of_le hf) (by simp)
      exact ⟨ihok, ihmeas.trans (by simp [hval])⟩
    · obtain ⟨ihok, ihmeas⟩ :=
        ih { row with measurements := row.measurements ++ [⟨a, b, val⟩] }
          (fld + 1) [] oob hrest (Nat.le_succ_of_le hf) (by simp)
      exact ⟨ihok, ihmeas.trans (by simp [hval, groupTriples])⟩
    · rw [List.length_cons, List.length_cons, List.length_cons] at hp
      omega

/-- Helper: starting below the required-field boundary with a not-yet-ok row,
the final ok flag is exactly the required-fields predicate from the current
field counter. -/
theorem iterateFields_ok_eq (line : List RawField) :
    ∀ (row : TimestampedMeasurements) (fld : ℕ) (pieces : List ℚ) (oob : Bool),
    row.ok = false → fld < 9 →
    (iterateFields ⟨row, fld, pieces, oob⟩ line).row.ok = requiredFrom fld line := by
  induction line with
  | nil =>
    intro row fld pieces oob hok hi
    simpa [iterateFields, requiredFrom] using hok
  | cons f rest ih =>
    intro row fld pieces oob hok hi
    interval_cases fld
    · cases hn : f.asNum with
      | none => simp [iterateFields, loadRowStep, requiredFrom, hn, hok]
      | some val =>
        have h := ih { row with xlate := { row.xlate with y := val } } 1 pieces oob hok
          (by norm_num)
        simp [iterateFields, loadRowStep, Vec3.set?, requiredFrom, hn, h]
    · cases hn : f.asNum with
      | none => simp [iterateFields, loadRowStep, requiredFrom, hn, hok]
      | some val =>
        have h := ih { row with xlate := { row.xlate with z := val } } 2 pieces oob hok
          (by norm_num)
        simp [iterateFields, loadRowStep, Vec3.set?, requiredFrom, hn, h]
    · cases hn : f.asNum with
      | none => simp [iterateFields, loadRowStep, requiredFrom, hn, hok]
      | some val =>
        have h := ih row 3 pieces true hok (by norm_num)
        simp [iterateFields, loadRowStep, Vec3.set?, requiredFrom, hn, h]
    · cases hn : f.asNum with
      | none => simp [iterateFields, loadRowStep, requiredFrom, hn, hok]
      | some val =>
        have h := ih { row with rot := { row.rot with w := val } } 4 pieces oob hok
          (by norm_num)
        simp [iterateFields, loadRowStep, requiredFrom, hn, h]
    · cases hn : f.asNum with
      | none => simp [iterateFields, loadRowStep, requiredFrom, hn, hok]
      | some val =>
        have h := ih { row with rot := { row.rot with x := val } } 5 pieces oob hok
          (by norm_num)
        simp [iterateFields, loadRowStep, requiredFrom, hn, h]
    · cases hn : f.asNum with
      | none => simp [iterateFields, loadRowStep, requiredFrom, hn, hok]
      | some val =>
        have h := ih { row with rot := { row.rot with y := val } } 6 pieces oob hok
          (by norm_num)
        simp [iterateFields, loadRowStep, requiredFrom, hn, h]
    · cases hn : f.asNum with
      | none => simp [iterateFields, loadRowStep, requiredFrom, hn, hok]
      | some val =>
        have h := ih { row with rot := { row.rot with z := val } } 7 pieces oob hok
          (by norm_num)
        simp [iterateFields, loadRowStep, requiredFrom, hn, h]
    · cases hn : f.asInt with
      | none => simp [iterateFields, loadRowStep, requiredFrom, hn, hok]
      | some val =>
        have h := ih { row with tv := { row.tv with seconds := val } } 8 pieces oob hok
          (by norm_num)
        simp [iterateFields, loadRowStep, requiredFrom, hn, h]
    · cases hn : f.asInt with
      | none => simp [iterateFields, loadRowStep, requiredFrom, hn, hok]
      | some val =>
        have h := iterateFields_ok_true rest
          { row with tv := { row.tv with microseconds := val }, ok := true } 9 pieces oob
          rfl (by norm_num)
        simp [iterateFields, loadRowStep, requiredFrom, hn, h]

/-- Helper: the required-from predicate started at field counter 0 is the
specification-side acceptance predicate. -/
theorem requiredFrom_zero (line : List RawField) :
    requiredFrom 0 line = requiredFieldsParse line := by
  rcases line with _ | ⟨f0, _ | ⟨f1, _ | ⟨f2, _ | ⟨f3, _ | ⟨f4, _ | ⟨f5, _ | ⟨f6, _ |
    ⟨f7, _ | ⟨f8, rest⟩⟩⟩⟩⟩⟩⟩⟩⟩ <;>
    simp [requiredFrom, requiredFieldsParse, Bool.and_assoc]

/-- Helper: a fresh row parsed from a line is accepted exactly when all nine
required fields parse. -/
theorem loadRow_ok_eq (line : List RawField) :
    (loadRow freshRow line).row.ok = requiredFieldsParse line := by
  rw [show loadRow freshRow line = iterateFields ⟨freshRow, 0, [], false⟩ line from rfl,
    iterateFields_ok_eq line freshRow 0 [] false rfl (by norm_num)]
  exact requiredFrom_zero line
/-- C3 counterexample: a data line whose nine required fields parse but whose
tenth (beacon) field fails every numeric parse is still accepted into the
resulting log (one row loaded), contrary to the claim that a parse failure in
any field, including beacon fields past index 8, excludes the row. -/
theorem C3_beacon_parse_failure_keeps_row :
    (loadData (some [[numF 0],
        [numF 1, numF 2, numF 3, numF 4, numF 5, numF 6, numF 7, intF 8, intF 9,
          badField]])).length = 1 ∧
    badField.asNum = none ∧ badField.asInt = none := by
  decide

/-- C3 amended: a numeric parse failure in any of the nine required scalar
fields excludes the row from the log while loading continues with the
subsequent lines; a parse failure in a trailing beacon field stops that row's
beacon parsing but does not exclude the row; a row is accepted exactly when
all nine required fields parsed successfully — the log is precisely the rows
of the lines satisfying the required-fields predicate, in order. -/
theorem C3_required_fields_decide_acceptance :
    (∀ line : List RawField, (loadRow freshRow line).row.ok = requiredFieldsParse line) ∧
    ∀ (hdr : List RawField) (dataLines : List (List RawField)), hdr ≠ [] →
      loadData (some (hdr :: dataLines))
        = (dataLines.filter fun l => requiredFieldsParse l).map
            fun l => (loadRow freshRow l).row := by
  refine ⟨loadRow_ok_eq, fun hdr dataLines hhdr => ?_⟩
  have hne : hdr.isEmpty = false := by
    cases hdr
    · exact absurd rfl hhdr
    · rfl
  suffices h : ∀ (ls : List (List RawField)) (acc : List TimestampedMeasurements),
      ls.foldl
        (fun ret dataLine =>
          if (loadRow freshRow dataLine).row.ok then
            ret ++ [(loadRow freshRow dataLine).row]
          else ret) acc
      = acc ++ (ls.filter fun l => requiredFieldsParse l).map
          (fun l => (loadRow freshRow l).row) by
    have hmain := h dataLines []
    simpa [loadData, hne] using hmain
  intro ls
  induction ls with
  | nil => intro acc; simp
  | cons l rest ih =>
    intro acc
    have hfl : requiredFieldsParse l = (loadRow freshRow l).row.ok := (loadRow_ok_eq l).symm
    cases hok : (loadRow freshRow l).row.ok <;>
      simp [List.foldl_cons, List.filter_cons, hfl, hok, ih, List.append_assoc]

/-- Witness for C3 amended at a concrete file: nonempty header, one line with
a beacon-field failure (kept) and one line with only an unparseable field
(dropped). -/
theorem C3_required_fields_decide_acceptance_witness :
    ([numF 0] : List RawField) ≠ [] ∧
    loadData (some ([numF 0] ::
        [[numF 1, numF 2, numF 3, numF 4, numF 5, numF 6, numF 7, intF 8, intF 9,
          badField],
         [badField]]))
      = (([[numF 1, numF 2, numF 3, numF 4, numF 5, numF 6, numF 7, intF 8, intF 9,
          badField],
         [badField]].filter fun l => requiredFieldsParse l).map
          fun l => (loadRow freshRow l).row) :=
  ⟨by decide,
   C3_required_fields_decide_acceptance.2 [numF 0]
     [[numF 1, numF 2, numF 3, numF 4, numF 5, numF 6, numF 7, intF 8, intF 9, badField],
      [badField]] (by decide)⟩

/-- C7: for a row whose nine required fields parse and whose trailing fields
all parse as numbers, the row is accepted, the stored beacon measurements are
exactly the trailing values grouped into triples in encounter order, and their
count is the floor of a third of the number of trailing fields — so one or two
leftover trailing fields are dropped without a partial beacon and without
invalidating the row. -/
theorem C7_beacon_triples (v0 v1 v2 v3 v4 v5 v6 : ℚ) (s8 u9 : Int)
    (trailing : List RawField) (hall : ∀ f ∈ trailing, f.asNum.isSome = true) :
    (loadRow freshRow ([numF v0, numF v1, numF v2, numF v3, numF v4, numF v5, numF v6,
        intF s8, intF u9] ++ trailing)).row.ok = true ∧
    (loadRow freshRow ([numF v0, numF v1, numF v2, numF v3, numF v4, numF v5, numF v6,
        intF s8, intF u9] ++ trailing)).row.measurements
      = groupTriples (trailing.map fun f => f.asNum.getD 0) ∧
    (loadRow freshRow ([numF v0, numF v1, numF v2, numF v3, numF v4, numF v5, numF v6,
        intF s8, intF u9] ++ trailing)).row.measurements.length
      = trailing.length / 3 := by
  have h9 : loadRow freshRow ([numF v0, numF v1, numF v2, numF v3, numF v4, numF v5,
        numF v6, intF s8, intF u9] ++ trailing)
      = iterateFields
          ⟨⟨⟨s8, u9⟩, ⟨0, v0, v1⟩, ⟨v3, v4, v5, v6⟩, [], true⟩, 9, [], true⟩ trailing := rfl
  obtain ⟨hok, hmeas⟩ :=
    iterateFields_beacons trailing ⟨⟨s8, u9⟩, ⟨0, v0, v1⟩, ⟨v3, v4, v5, v6⟩, [], true⟩
      9 [] true hall (le_refl 9) (by simp)
  refine ⟨?_, ?_, ?_⟩
  · rw [h9]; exact hok
  · rw [h9]; exact hmeas.trans (by simp)
  · rw [h9, hmeas]
    simp [groupTriples_length]

/-- Witness for C7 with seven trailing numeric fields: two beacons stored, one
leftover field dropped. -/
theorem C7_beacon_triples_witness :
    (∀ f ∈ [numF 10, numF 11, numF 12, numF 13, numF 14, numF 15, numF 16],
        RawField.asNum f |>.isSome = true) ∧
    ((loadRow freshRow ([numF 1, numF 2, numF 3, numF 4, numF 5, numF 6, numF 7,
        intF 8, intF 9] ++ [numF 10, numF 11, numF 12, numF 13, numF 14, numF 15,
        numF 16])).row.ok = true ∧
     (loadRow freshRow ([numF 1, numF 2, numF 3, numF 4, numF 5, numF 6, numF 7,
        intF 8, intF 9] ++ [numF 10, numF 11, numF 12, numF 13, numF 14, numF 15,
        numF 16])).row.measurements
       = groupTriples ([numF 10, numF 11, numF 12, numF 13, numF 14, numF 15,
          numF 16].map fun f => f.asNum.getD 0) ∧
     (loadRow freshRow ([numF 1, numF 2, numF 3, numF 4, numF 5, numF 6, numF 7,
        intF 8, intF 9] ++ [numF 10, numF 11, numF 12, numF 13, numF 14, numF 15,
        numF 16])).row.measurements.length
       = ([numF 10, numF 11, numF 12, numF 13, numF 14, numF 15, numF 16]
           : List RawField).length / 3) :=
  ⟨by decide,
   C7_beacon_triples 1 2 3 4 5 6 7 8 9
     [numF 10, numF 11, numF 12, numF 13, numF 14, numF 15, numF 16] (by decide)⟩

end VbTracker
